import Mathlib

set_option maxHeartbeats 1000000
set_option maxRecDepth 8000

noncomputable section

open Classical

/-! Shallow embedding of the QuillCAD sketch/selection/extrusion core
(`src/main.rs`).  `f32` values are modelled as exact real numbers; the
Bevy ECS queries over sketch entities are modelled as ordered lists of
stored primitives carrying their `Selected` marker and rendering
visibility flag.  Systems become pure state-transition functions on that
store. -/

/-- A 3-component vector, modelling bevy's `Vec3` with exact reals. -/
structure Vec3 where
  x : ℝ
  y : ℝ
  z : ℝ

/-- Componentwise subtraction, modelling `Vec3` subtraction. -/
def Vec3.sub (a b : Vec3) : Vec3 := ⟨a.x - b.x, a.y - b.y, a.z - b.z⟩

/-- Componentwise addition, modelling `Vec3` addition. -/
def Vec3.add (a b : Vec3) : Vec3 := ⟨a.x + b.x, a.y + b.y, a.z + b.z⟩

/-- Scalar multiplication, modelling `t * v` on `Vec3`. -/
def Vec3.smul (t : ℝ) (a : Vec3) : Vec3 := ⟨t * a.x, t * a.y, t * a.z⟩

/-- Dot product, modelling `Vec3::dot`. -/
def Vec3.dot (a b : Vec3) : ℝ := a.x * b.x + a.y * b.y + a.z * b.z

/-- Squared length, modelling `Vec3::length_squared`. -/
def Vec3.lengthSquared (a : Vec3) : ℝ := a.dot a

/-- Squared distance, modelling `Vec3::distance_squared`. -/
def Vec3.distanceSquared (a b : Vec3) : ℝ := (a.sub b).lengthSquared

/-- Euclidean distance, modelling `Vec3::distance`. -/
def Vec3.distance (a b : Vec3) : ℝ := Real.sqrt (a.distanceSquared b)

/-- Model of `point_line_segment_distance_sq` (main.rs lines 445-461):
squared distance from point `p` to the segment `a b`, with the
degenerate-segment guard and the clamped projection, branch for branch. -/
def point_line_segment_distance_sq (p a b : Vec3) : ℝ :=
  if (b.sub a).lengthSquared = 0 then (p.sub a).lengthSquared
  else if (p.sub a).dot (b.sub a) / (b.sub a).lengthSquared < 0 then
    (p.sub a).lengthSquared
  else if 1 < (p.sub a).dot (b.sub a) / (b.sub a).lengthSquared then
    (p.sub b).lengthSquared
  else
    (p.sub (a.add (Vec3.smul ((p.sub a).dot (b.sub a) / (b.sub a).lengthSquared) (b.sub a)))).lengthSquared

/-- Model of the `SketchLine` component: endpoints `p1`, `p2`. -/
structure SketchLine where
  p1 : Vec3
  p2 : Vec3

/-- Model of the `SketchCircle` component: `center` and `radius`. -/
structure SketchCircle where
  center : Vec3
  radius : ℝ

/-- Model of the `SketchRectangle` component: opposite corners `p1`, `p2`. -/
structure SketchRectangle where
  p1 : Vec3
  p2 : Vec3

/-- A line entity in the store: the component data, its `Selected`
marker (`sel`) and whether `Visibility::Hidden` has been inserted. -/
structure StoredLine where
  line : SketchLine
  sel : Bool
  hidden : Bool

/-- A circle entity in the store. -/
structure StoredCircle where
  circle : SketchCircle
  sel : Bool
  hidden : Bool

/-- A rectangle entity in the store. -/
structure StoredRect where
  rect : SketchRectangle
  sel : Bool
  hidden : Bool

/-- The sketch store: the sets of sketch entities the ECS queries
iterate over, in iteration order. -/
structure SketchStore where
  lines : List StoredLine
  circles : List StoredCircle
  rects : List StoredRect

/-- The empty sketch store. -/
def emptyStore : SketchStore := ⟨[], [], []⟩

/-- Reference to one sketch entity, by kind and position in its list. -/
inductive EntityRef : Type where
  | line : Nat → EntityRef
  | circle : Nat → EntityRef
  | rect : Nat → EntityRef
  deriving DecidableEq

/-- The selection tolerance squared, `0.1 * 0.1` (main.rs line 289). -/
def tolerance_sq : ℝ := 0.1 * 0.1

/-- Exact value of `f32::MAX`, the initial `min_distance_sq`. -/
def f32_MAX : ℝ := 2 ^ 128 - 2 ^ 104

/-- The hit metric for a line: squared distance to the segment
(main.rs line 293). -/
def lineMetric (p : Vec3) (l : SketchLine) : ℝ :=
  point_line_segment_distance_sq p l.p1 l.p2

/-- The hit metric for a circle: squared difference between distance to
the center and the radius (main.rs lines 302-304). -/
def circleMetric (p : Vec3) (c : SketchCircle) : ℝ :=
  (Real.sqrt (p.distanceSquared c.center) - c.radius) ^ 2

/-- Smaller x corner coordinate of a rectangle (main.rs line 314). -/
def rectMinX (r : SketchRectangle) : ℝ := min r.p1.x r.p2.x

/-- Larger x corner coordinate of a rectangle. -/
def rectMaxX (r : SketchRectangle) : ℝ := max r.p1.x r.p2.x

/-- Smaller z corner coordinate of a rectangle. -/
def rectMinZ (r : SketchRectangle) : ℝ := min r.p1.z r.p2.z

/-- Larger z corner coordinate of a rectangle. -/
def rectMaxZ (r : SketchRectangle) : ℝ := max r.p1.z r.p2.z

/-- The rectangle hit predicate (main.rs lines 314-328): inside the
axis-aligned bounding box, or within `tolerance_sq.sqrt()` of one of the
four border coordinate lines. -/
def rectHitProp (p : Vec3) (r : SketchRectangle) : Prop :=
  (rectMinX r ≤ p.x ∧ p.x ≤ rectMaxX r ∧ rectMinZ r ≤ p.z ∧ p.z ≤ rectMaxZ r) ∨
  |p.x - rectMinX r| < Real.sqrt tolerance_sq ∨
  |p.x - rectMaxX r| < Real.sqrt tolerance_sq ∨
  |p.z - rectMinZ r| < Real.sqrt tolerance_sq ∨
  |p.z - rectMaxZ r| < Real.sqrt tolerance_sq

/-- Running state of the hit-test scan: `closest_entity` and
`min_distance_sq` (main.rs lines 287-288). -/
structure ScanState where
  closest : Option EntityRef
  minDistSq : ℝ

/-- Initial scan state: no entity, `f32::MAX`. -/
def initScan : ScanState := ⟨none, f32_MAX⟩

/-- The line loop of `selection_system` (main.rs lines 292-298), with
`i` the index of the head entity. -/
def scanLines (p : Vec3) : List StoredLine → Nat → ScanState → ScanState
  | [], _, st => st
  | e :: rest, i, st =>
      scanLines p rest (i + 1)
        (if lineMetric p e.line < tolerance_sq ∧ lineMetric p e.line < st.minDistSq
         then ⟨some (EntityRef.line i), lineMetric p e.line⟩ else st)

/-- The circle loop of `selection_system` (main.rs lines 301-309). -/
def scanCircles (p : Vec3) : List StoredCircle → Nat → ScanState → ScanState
  | [], _, st => st
  | e :: rest, i, st =>
      scanCircles p rest (i + 1)
        (if circleMetric p e.circle < tolerance_sq ∧ circleMetric p e.circle < st.minDistSq
         then ⟨some (EntityRef.circle i), circleMetric p e.circle⟩ else st)

/-- The rectangle loop of `selection_system` (main.rs lines 312-336): a
hit rectangle takes over with distance 0 unless the running minimum is
already 0. -/
def scanRects (p : Vec3) : List StoredRect → Nat → ScanState → ScanState
  | [], _, st => st
  | e :: rest, i, st =>
      scanRects p rest (i + 1)
        (if rectHitProp p e.rect ∧ 0 < st.minDistSq
         then ⟨some (EntityRef.rect i), 0⟩ else st)

/-- The full hit-test of `selection_system`: lines, then circles, then
rectangles, starting from `f32::MAX`. -/
def selectionHit (p : Vec3) (s : SketchStore) : Option EntityRef :=
  (scanRects p s.rects 0 (scanCircles p s.circles 0 (scanLines p s.lines 0 initScan))).closest

/-- The scan state after the line and circle loops. -/
def lcScan (p : Vec3) (s : SketchStore) : ScanState :=
  scanCircles p s.circles 0 (scanLines p s.lines 0 initScan)

/-- The scan state after all three loops. -/
def fullScan (p : Vec3) (s : SketchStore) : ScanState :=
  scanRects p s.rects 0 (lcScan p s)

/-- Rewrite of the line list after a selection click: every entity's
`Selected` marker is removed, then the winner (if any) gets it
(main.rs lines 338-358). -/
def markLines (h : Option EntityRef) : List StoredLine → Nat → List StoredLine
  | [], _ => []
  | e :: rest, i =>
      { e with sel := decide (h = some (EntityRef.line i)) } :: markLines h rest (i + 1)

/-- Rewrite of the circle list after a selection click. -/
def markCircles (h : Option EntityRef) : List StoredCircle → Nat → List StoredCircle
  | [], _ => []
  | e :: rest, i =>
      { e with sel := decide (h = some (EntityRef.circle i)) } :: markCircles h rest (i + 1)

/-- Rewrite of the rectangle list after a selection click. -/
def markRects (h : Option EntityRef) : List StoredRect → Nat → List StoredRect
  | [], _ => []
  | e :: rest, i =>
      { e with sel := decide (h = some (EntityRef.rect i)) } :: markRects h rest (i + 1)

/-- Clear all `Selected` markers and mark the hit entity, if any. -/
def applySelection (h : Option EntityRef) (s : SketchStore) : SketchStore :=
  ⟨markLines h s.lines 0, markCircles h s.circles 0, markRects h s.rects 0⟩

/-- Model of `selection_system` (main.rs lines 268-361) for one primary
click at projected world point `p` (the system runs only with the
Select tool active, a left just-press, a successful projection, and the
UI not capturing the pointer; those guards are at the call sites). -/
def selection_system (p : Vec3) (s : SketchStore) : SketchStore :=
  applySelection (selectionHit p s) s

/-- The entity referenced by `r` exists in the store. -/
def refValid (s : SketchStore) : EntityRef → Prop
  | EntityRef.line i => ∃ e, s.lines[i]? = some e
  | EntityRef.circle i => ∃ e, s.circles[i]? = some e
  | EntityRef.rect i => ∃ e, s.rects[i]? = some e

/-- The entity referenced by `r` exists and carries the `Selected` marker. -/
def isSelected (s : SketchStore) : EntityRef → Prop
  | EntityRef.line i => ∃ e, s.lines[i]? = some e ∧ e.sel = true
  | EntityRef.circle i => ∃ e, s.circles[i]? = some e ∧ e.sel = true
  | EntityRef.rect i => ∃ e, s.rects[i]? = some e ∧ e.sel = true

/-- No entity of the store carries the `Selected` marker. -/
def storeNoneSelected (s : SketchStore) : Prop :=
  (∀ e ∈ s.lines, e.sel = false) ∧ (∀ e ∈ s.circles, e.sel = false) ∧
  (∀ e ∈ s.rects, e.sel = false)

/-- The entity referenced by `r` is within tolerance of the click (for
rectangles: the code's inside-or-near-border hit predicate). -/
def withinTol (p : Vec3) (s : SketchStore) : EntityRef → Prop
  | EntityRef.line i => ∃ e, s.lines[i]? = some e ∧ lineMetric p e.line < tolerance_sq
  | EntityRef.circle i => ∃ e, s.circles[i]? = some e ∧ circleMetric p e.circle < tolerance_sq
  | EntityRef.rect i => ∃ e, s.rects[i]? = some e ∧ rectHitProp p e.rect

/-- The effective metric the scan competes on: the distance metric for
lines and circles, 0 for a hit rectangle, `f32::MAX` otherwise. -/
def refMetric (p : Vec3) (s : SketchStore) : EntityRef → ℝ
  | EntityRef.line i =>
      match s.lines[i]? with
      | some e => lineMetric p e.line
      | none => f32_MAX
  | EntityRef.circle i =>
      match s.circles[i]? with
      | some e => circleMetric p e.circle
      | none => f32_MAX
  | EntityRef.rect i =>
      match s.rects[i]? with
      | some e => if rectHitProp p e.rect then 0 else f32_MAX
      | none => f32_MAX

/-- Distance from a point to a line segment (the square root of the
code's squared metric); used to phrase claims stated in distances. -/
def segmentDistance (p a b : Vec3) : ℝ :=
  Real.sqrt (point_line_segment_distance_sq p a b)

/-- Distance from a point to a circle's circumference, the square root
of the code's circle metric. -/
def circumferenceDistance (p : Vec3) (c : SketchCircle) : ℝ :=
  |Vec3.distance p c.center - c.radius|

/-- Modelled from the spec: distance from a point to the boundary of an
axis-aligned rectangle, as the minimum distance to its four edges (the
corner layout follows `draw_rectangle`, main.rs lines 514-521).  The
claim C1 measures rectangle distance this way; the code itself uses
`rectHitProp`. -/
def rectBoundaryDistance (p : Vec3) (r : SketchRectangle) : ℝ :=
  min (min (segmentDistance p r.p1 ⟨r.p1.x, 0, r.p2.z⟩)
           (segmentDistance p ⟨r.p1.x, 0, r.p2.z⟩ r.p2))
      (min (segmentDistance p r.p2 ⟨r.p2.x, 0, r.p1.z⟩)
           (segmentDistance p ⟨r.p2.x, 0, r.p1.z⟩ r.p1))

/-- Model of the `ActiveSketchTool` resource. -/
inductive ActiveSketchTool : Type where
  | Line : ActiveSketchTool
  | Circle : ActiveSketchTool
  | Rectangle : ActiveSketchTool
  | Select : ActiveSketchTool
  deriving DecidableEq

/-- Model of the `SketchData` resource: the pending anchor point and
the extrude distance. -/
structure SketchData where
  start_point : Option Vec3
  extrude_distance : ℝ

/-- `SketchData::default()`: no anchor, distance `0.0`. -/
def defaultSketchData : SketchData := ⟨none, 0⟩

/-- Spawn a line entity (appended to the store, unselected, visible). -/
def spawnLine (s : SketchStore) (l : SketchLine) : SketchStore :=
  { s with lines := s.lines ++ [⟨l, false, false⟩] }

/-- Spawn a circle entity. -/
def spawnCircle (s : SketchStore) (c : SketchCircle) : SketchStore :=
  { s with circles := s.circles ++ [⟨c, false, false⟩] }

/-- Spawn a rectangle entity. -/
def spawnRect (s : SketchStore) (r : SketchRectangle) : SketchStore :=
  { s with rects := s.rects ++ [⟨r, false, false⟩] }

/-- Model of `sketching_system` (main.rs lines 223-265) for one frame:
`using_pointer` is egui's `is_using_pointer`, `proj` the result of
`screen_to_world`, `left`/`right` the just-pressed states of the mouse
buttons.  Primary click handling (anchor or commit) runs before the
secondary-click cancel, exactly as in the code, and both run only when
the projection succeeded and the UI does not capture the pointer. -/
def sketching_system (using_pointer : Bool) (proj : Option Vec3) (left right : Bool)
    (tool : ActiveSketchTool) (data : SketchData) (s : SketchStore) :
    SketchData × SketchStore :=
  if using_pointer then (data, s)
  else
    match proj with
    | none => (data, s)
    | some world_pos =>
        let step1 : SketchData × SketchStore :=
          if left then
            match data.start_point with
            | some start_pos =>
                let s' :=
                  match tool with
                  | ActiveSketchTool.Line => spawnLine s ⟨start_pos, world_pos⟩
                  | ActiveSketchTool.Circle =>
                      spawnCircle s ⟨start_pos, Vec3.distance start_pos world_pos⟩
                  | ActiveSketchTool.Rectangle => spawnRect s ⟨start_pos, world_pos⟩
                  | ActiveSketchTool.Select => s
                ({ data with start_point := none }, s')
            | none => ({ data with start_point := some world_pos }, s)
          else (data, s)
        if right then ({ step1.1 with start_point := none }, step1.2) else step1

/-- The mesh emitted for an extruded line: positions, normals, UVs and
triangle indices (main.rs lines 389-398). -/
structure QuadMesh where
  positions : List Vec3
  normals : List Vec3
  uvs : List (ℝ × ℝ)
  indices : List Nat

/-- The up axis `Vec3::Y`, the hardcoded extrusion direction. -/
def upAxis : Vec3 := ⟨0, 1, 0⟩

/-- The quad built for a selected line under extrusion distance `d`:
vertices `p1, p2, p2 + d*Y, p1 + d*Y`, constant `Y` normals, the fixed
UVs, and triangles `(0,1,2)` and `(0,2,3)`. -/
def extrudeLineMesh (l : SketchLine) (d : ℝ) : QuadMesh :=
  { positions := [l.p1, l.p2, l.p2.add (Vec3.smul d upAxis), l.p1.add (Vec3.smul d upAxis)]
  , normals := [upAxis, upAxis, upAxis, upAxis]
  , uvs := [(0, 0), (1, 0), (1, 1), (0, 1)]
  , indices := [0, 1, 2, 0, 2, 3] }

/-- A 3D solid description emitted by the extruder: a raw quad mesh, a
`Cylinder::new(radius, height)` with a translation, or a
`Cuboid::new(width, height, depth)` with a translation. -/
inductive Solid : Type where
  | surface : QuadMesh → Solid
  | cylinder : ℝ → ℝ → Vec3 → Solid
  | box : ℝ → ℝ → ℝ → Vec3 → Solid

/-- The line pass of `extrude_system` (main.rs lines 382-406): each
selected line yields a quad solid and gets `Visibility::Hidden`
inserted; its `Selected` marker is left in place. -/
def extrudeLines (d : ℝ) : List StoredLine → List StoredLine × List Solid
  | [] => ([], [])
  | e :: rest =>
      let r := extrudeLines d rest
      ((if e.sel then { e with hidden := true } else e) :: r.1,
       if e.sel then Solid.surface (extrudeLineMesh e.line d) :: r.2 else r.2)

/-- The circle pass of `extrude_system` (main.rs lines 409-418): each
selected circle yields `Cylinder::new(radius, d)` placed at
`(center.x, d / 2, center.z)`. -/
def extrudeCircles (d : ℝ) : List StoredCircle → List StoredCircle × List Solid
  | [] => ([], [])
  | e :: rest =>
      let r := extrudeCircles d rest
      ((if e.sel then { e with hidden := true } else e) :: r.1,
       if e.sel then
         Solid.cylinder e.circle.radius d ⟨e.circle.center.x, d / 2, e.circle.center.z⟩ :: r.2
       else r.2)

/-- The rectangle pass of `extrude_system` (main.rs lines 421-440):
each selected rectangle yields `Cuboid::new(width, d, depth)` placed at
the rectangle's midpoint, `d / 2` high. -/
def extrudeRects (d : ℝ) : List StoredRect → List StoredRect × List Solid
  | [] => ([], [])
  | e :: rest =>
      let r := extrudeRects d rest
      ((if e.sel then { e with hidden := true } else e) :: r.1,
       if e.sel then
         Solid.box (rectMaxX e.rect - rectMinX e.rect) d (rectMaxZ e.rect - rectMinZ e.rect)
           ⟨(rectMinX e.rect + rectMaxX e.rect) / 2, d / 2, (rectMinZ e.rect + rectMaxZ e.rect) / 2⟩ :: r.2
       else r.2)

/-- Model of `extrude_system` reacting to one `ExtrudeEvent`: the
updated store and the emitted solids, lines first, then circles, then
rectangles. -/
def extrude_system (s : SketchStore) (d : ℝ) : SketchStore × List Solid :=
  (⟨(extrudeLines d s.lines).1, (extrudeCircles d s.circles).1, (extrudeRects d s.rects).1⟩,
   (extrudeLines d s.lines).2 ++ (extrudeCircles d s.circles).2 ++ (extrudeRects d s.rects).2)

/-- The store with `Visibility::Hidden` inserted on every entity. -/
def hideAllStore (s : SketchStore) : SketchStore :=
  ⟨s.lines.map (fun e => { e with hidden := true }),
   s.circles.map (fun e => { e with hidden := true }),
   s.rects.map (fun e => { e with hidden := true })⟩

/-- The core state touched by the mode transitions: the sketch entity
store and the `SketchData` resource. -/
structure AppModel where
  store : SketchStore
  sketch_data : SketchData

/-- Model of `on_sketch_enter` (main.rs lines 149-183): reset
`SketchData` and despawn every sketch entity (camera and visibility
side effects belong to external collaborators). -/
def on_sketch_enter (_m : AppModel) : AppModel :=
  { store := emptyStore, sketch_data := defaultSketchData }

/-- Model of `on_sketch_exit` (main.rs lines 186-203): reset
`SketchData` only; sketch entities are not despawned. -/
def on_sketch_exit (m : AppModel) : AppModel :=
  { m with sketch_data := defaultSketchData }

/-! Basic facts about the geometry helpers. -/

lemma lengthSquared_nonneg (v : Vec3) : 0 ≤ v.lengthSquared := by
  simp only [Vec3.lengthSquared, Vec3.dot]
  nlinarith [sq_nonneg v.x, sq_nonneg v.y, sq_nonneg v.z]

lemma plsd_nonneg (p a b : Vec3) : 0 ≤ point_line_segment_distance_sq p a b := by
  unfold point_line_segment_distance_sq
  split_ifs <;> apply lengthSquared_nonneg

lemma lineMetric_nonneg (p : Vec3) (l : SketchLine) : 0 ≤ lineMetric p l :=
  plsd_nonneg p l.p1 l.p2

lemma circleMetric_nonneg (p : Vec3) (c : SketchCircle) : 0 ≤ circleMetric p c := by
  unfold circleMetric
  positivity

lemma f32_MAX_pos : 0 < f32_MAX := by norm_num [f32_MAX]

lemma tol_pos : 0 < tolerance_sq := by norm_num [tolerance_sq]

lemma tol_lt_max : tolerance_sq < f32_MAX := by norm_num [tolerance_sq, f32_MAX]

lemma sqrt_tolerance : Real.sqrt tolerance_sq = 0.1 :=
  Real.sqrt_mul_self (by norm_num)

lemma sqrt_eq_of_mul_self {a b : ℝ} (hb : 0 ≤ b) (h : b * b = a) : Real.sqrt a = b := by
  rw [← h, Real.sqrt_mul_self hb]

lemma refMetric_nonneg (p : Vec3) (s : SketchStore) (r : EntityRef) :
    0 ≤ refMetric p s r := by
  cases r with
  | line i =>
      simp only [refMetric]
      cases s.lines[i]? with
      | none => exact le_of_lt f32_MAX_pos
      | some e => exact lineMetric_nonneg p e.line
  | circle i =>
      simp only [refMetric]
      cases s.circles[i]? with
      | none => exact le_of_lt f32_MAX_pos
      | some e => exact circleMetric_nonneg p e.circle
  | rect i =>
      simp only [refMetric]
      cases s.rects[i]? with
      | none => exact le_of_lt f32_MAX_pos
      | some e =>
          show 0 ≤ if rectHitProp p e.rect then 0 else f32_MAX
          split_ifs
          · exact le_refl 0
          · exact le_of_lt f32_MAX_pos

/-! Invariants of the three hit-test scan loops. -/

lemma scanLines_min_le (p : Vec3) : ∀ (ls : List StoredLine) (i : Nat) (st : ScanState),
    (scanLines p ls i st).minDistSq ≤ st.minDistSq := by
  intro ls
  induction ls with
  | nil => intro i st; simp [scanLines]
  | cons f rest ih =>
      intro i st
      simp only [scanLines]
      refine le_trans (ih (i + 1) _) ?_
      split_ifs with h
      · exact le_of_lt h.2
      · exact le_refl _

lemma scanCircles_min_le (p : Vec3) : ∀ (cs : List StoredCircle) (i : Nat) (st : ScanState),
    (scanCircles p cs i st).minDistSq ≤ st.minDistSq := by
  intro cs
  induction cs with
  | nil => intro i st; simp [scanCircles]
  | cons f rest ih =>
      intro i st
      simp only [scanCircles]
      refine le_trans (ih (i + 1) _) ?_
      split_ifs with h
      · exact le_of_lt h.2
      · exact le_refl _

lemma scanRects_min_le (p : Vec3) : ∀ (rs : List StoredRect) (i : Nat) (st : ScanState),
    (scanRects p rs i st).minDistSq ≤ st.minDistSq := by
  intro rs
  induction rs with
  | nil => intro i st; simp [scanRects]
  | cons f rest ih =>
      intro i st
      simp only [scanRects]
      refine le_trans (ih (i + 1) _) ?_
      split_ifs with h
      · exact le_of_lt h.2
      · exact le_refl _

lemma scanLines_dom (p : Vec3) : ∀ (ls : List StoredLine) (i : Nat) (st : ScanState)
    (j : Nat) (e : StoredLine), ls[j]? = some e → lineMetric p e.line < tolerance_sq →
    (scanLines p ls i st).minDistSq ≤ lineMetric p e.line := by
  intro ls
  induction ls with
  | nil => intro i st j e hj _; simp at hj
  | cons f rest ih =>
      intro i st j e hj hm
      cases j with
      | zero =>
          simp only [List.getElem?_cons_zero, Option.some.injEq] at hj
          subst hj
          simp only [scanLines]
          refine le_trans (scanLines_min_le p rest (i + 1) _) ?_
          split_ifs with h
          · exact le_refl _
          · rcases not_and_or.mp h with h1 | h2
            · exact absurd hm h1
            · exact le_of_not_lt h2
      | succ j =>
          simp only [List.getElem?_cons_succ] at hj
          simp only [scanLines]
          exact ih (i + 1) _ j e hj hm

lemma scanCircles_dom (p : Vec3) : ∀ (cs : List StoredCircle) (i : Nat) (st : ScanState)
    (j : Nat) (e : StoredCircle), cs[j]? = some e → circleMetric p e.circle < tolerance_sq →
    (scanCircles p cs i st).minDistSq ≤ circleMetric p e.circle := by
  intro cs
  induction cs with
  | nil => intro i st j e hj _; simp at hj
  | cons f rest ih =>
      intro i st j e hj hm
      cases j with
      | zero =>
          simp only [List.getElem?_cons_zero, Option.some.injEq] at hj
          subst hj
          simp only [scanCircles]
          refine le_trans (scanCircles_min_le p rest (i + 1) _) ?_
          split_ifs with h
          · exact le_refl _
          · rcases not_and_or.mp h with h1 | h2
            · exact absurd hm h1
            · exact le_of_not_lt h2
      | succ j =>
          simp only [List.getElem?_cons_succ] at hj
          simp only [scanCircles]
          exact ih (i + 1) _ j e hj hm

lemma scanRects_dom0 (p : Vec3) : ∀ (rs : List StoredRect) (i : Nat) (st : ScanState)
    (j : Nat) (e : StoredRect), rs[j]? = some e → rectHitProp p e.rect →
    (scanRects p rs i st).minDistSq ≤ 0 := by
  intro rs
  induction rs with
  | nil => intro i st j e hj _; simp at hj
  | cons f rest ih =>
      intro i st j e hj hhit
      cases j with
      | zero =>
          simp only [List.getElem?_cons_zero, Option.some.injEq] at hj
          subst hj
          simp only [scanRects]
          by_cases hc : 0 < st.minDistSq
          · rw [if_pos ⟨hhit, hc⟩]
            exact scanRects_min_le p rest (i + 1) _
          · rw [if_neg (fun hcc => hc hcc.2)]
            exact le_trans (scanRects_min_le p rest (i + 1) _) (le_of_not_lt hc)
      | succ j =>
          simp only [List.getElem?_cons_succ] at hj
          simp only [scanRects]
          exact ih (i + 1) _ j e hj hhit

lemma scanRects_stay (p : Vec3) : ∀ (rs : List StoredRect) (i : Nat) (st : ScanState),
    st.minDistSq ≤ 0 → scanRects p rs i st = st := by
  intro rs
  induction rs with
  | nil => intro i st _; simp [scanRects]
  | cons f rest ih =>
      intro i st h0
      simp only [scanRects]
      rw [if_neg (fun hc => absurd hc.2 (not_lt.mpr h0))]
      exact ih (i + 1) st h0

lemma scanLines_cases (p : Vec3) : ∀ (ls : List StoredLine) (i : Nat) (st : ScanState),
    scanLines p ls i st = st ∨
    ∃ j e, ls[j]? = some e ∧ lineMetric p e.line < tolerance_sq ∧
      scanLines p ls i st = ⟨some (EntityRef.line (i + j)), lineMetric p e.line⟩ := by
  intro ls
  induction ls with
  | nil => intro i st; left; simp [scanLines]
  | cons f rest ih =>
      intro i st
      simp only [scanLines]
      rcases ih (i + 1)
          (if lineMetric p f.line < tolerance_sq ∧ lineMetric p f.line < st.minDistSq
           then ⟨some (EntityRef.line i), lineMetric p f.line⟩ else st) with h | ⟨j, e, hj, hm, h⟩
      · rw [h]
        by_cases hc : lineMetric p f.line < tolerance_sq ∧ lineMetric p f.line < st.minDistSq
        · right
          exact ⟨0, f, by simp, hc.1, by rw [if_pos hc, Nat.add_zero]⟩
        · left
          rw [if_neg hc]
      · right
        refine ⟨j + 1, e, by simpa using hj, hm, ?_⟩
        rw [h, (by omega : i + 1 + j = i + (j + 1))]

lemma scanCircles_cases (p : Vec3) : ∀ (cs : List StoredCircle) (i : Nat) (st : ScanState),
    scanCircles p cs i st = st ∨
    ∃ j e, cs[j]? = some e ∧ circleMetric p e.circle < tolerance_sq ∧
      scanCircles p cs i st = ⟨some (EntityRef.circle (i + j)), circleMetric p e.circle⟩ := by
  intro cs
  induction cs with
  | nil => intro i st; left; simp [scanCircles]
  | cons f rest ih =>
      intro i st
      simp only [scanCircles]
      rcases ih (i + 1)
          (if circleMetric p f.circle < tolerance_sq ∧ circleMetric p f.circle < st.minDistSq
           then ⟨some (EntityRef.circle i), circleMetric p f.circle⟩ else st) with h | ⟨j, e, hj, hm, h⟩
      · rw [h]
        by_cases hc : circleMetric p f.circle < tolerance_sq ∧ circleMetric p f.circle < st.minDistSq
        · right
          exact ⟨0, f, by simp, hc.1, by rw [if_pos hc, Nat.add_zero]⟩
        · left
          rw [if_neg hc]
      · right
        refine ⟨j + 1, e, by simpa using hj, hm, ?_⟩
        rw [h, (by omega : i + 1 + j = i + (j + 1))]

lemma scanRects_cases (p : Vec3) : ∀ (rs : List StoredRect) (i : Nat) (st : ScanState),
    scanRects p rs i st = st ∨
    ∃ j e, rs[j]? = some e ∧ rectHitProp p e.rect ∧
      scanRects p rs i st = ⟨some (EntityRef.rect (i + j)), 0⟩ := by
  intro rs
  induction rs with
  | nil => intro i st; left; simp [scanRects]
  | cons f rest ih =>
      intro i st
      simp only [scanRects]
      rcases ih (i + 1)
          (if rectHitProp p f.rect ∧ 0 < st.minDistSq
           then ⟨some (EntityRef.rect i), 0⟩ else st) with h | ⟨j, e, hj, hhit, h⟩
      · rw [h]
        by_cases hc : rectHitProp p f.rect ∧ 0 < st.minDistSq
        · right
          exact ⟨0, f, by simp, hc.1, by rw [if_pos hc, Nat.add_zero]⟩
        · left
          rw [if_neg hc]
      · right
        refine ⟨j + 1, e, by simpa using hj, hhit, ?_⟩
        rw [h, (by omega : i + 1 + j = i + (j + 1))]

lemma scanLines_noop (p : Vec3) : ∀ (ls : List StoredLine) (i : Nat) (st : ScanState),
    (∀ e ∈ ls, ¬ lineMetric p e.line < tolerance_sq) → scanLines p ls i st = st := by
  intro ls
  induction ls with
  | nil => intro i st _; simp [scanLines]
  | cons f rest ih =>
      intro i st h
      simp only [scanLines]
      rw [if_neg (fun hc => h f (List.mem_cons_self f rest) hc.1)]
      exact ih (i + 1) st (fun e he => h e (List.mem_cons_of_mem f he))

lemma scanCircles_noop (p : Vec3) : ∀ (cs : List StoredCircle) (i : Nat) (st : ScanState),
    (∀ e ∈ cs, ¬ circleMetric p e.circle < tolerance_sq) → scanCircles p cs i st = st := by
  intro cs
  induction cs with
  | nil => intro i st _; simp [scanCircles]
  | cons f rest ih =>
      intro i st h
      simp only [scanCircles]
      rw [if_neg (fun hc => h f (List.mem_cons_self f rest) hc.1)]
      exact ih (i + 1) st (fun e he => h e (List.mem_cons_of_mem f he))

lemma scanRects_noop (p : Vec3) : ∀ (rs : List StoredRect) (i : Nat) (st : ScanState),
    (∀ e ∈ rs, ¬ rectHitProp p e.rect) → scanRects p rs i st = st := by
  intro rs
  induction rs with
  | nil => intro i st _; simp [scanRects]
  | cons f rest ih =>
      intro i st h
      simp only [scanRects]
      rw [if_neg (fun hc => h f (List.mem_cons_self f rest) hc.1)]
      exact ih (i + 1) st (fun e he => h e (List.mem_cons_of_mem f he))

/-! The scans read only the geometric component of each entity, never
the `Selected` marker or the visibility flag. -/

lemma scanLines_map (p : Vec3) (f : StoredLine → StoredLine)
    (hf : ∀ e, (f e).line = e.line) :
    ∀ (ls : List StoredLine) (i : Nat) (st : ScanState),
    scanLines p (List.map f ls) i st = scanLines p ls i st := by
  intro ls
  induction ls with
  | nil => intro i st; simp
  | cons e rest ih =>
      intro i st
      simp only [List.map_cons, scanLines, hf]
      rw [ih]

lemma scanCircles_map (p : Vec3) (f : StoredCircle → StoredCircle)
    (hf : ∀ e, (f e).circle = e.circle) :
    ∀ (cs : List StoredCircle) (i : Nat) (st : ScanState),
    scanCircles p (List.map f cs) i st = scanCircles p cs i st := by
  intro cs
  induction cs with
  | nil => intro i st; simp
  | cons e rest ih =>
      intro i st
      simp only [List.map_cons, scanCircles, hf]
      rw [ih]

lemma scanRects_map (p : Vec3) (f : StoredRect → StoredRect)
    (hf : ∀ e, (f e).rect = e.rect) :
    ∀ (rs : List StoredRect) (i : Nat) (st : ScanState),
    scanRects p (List.map f rs) i st = scanRects p rs i st := by
  intro rs
  induction rs with
  | nil => intro i st; simp
  | cons e rest ih =>
      intro i st
      simp only [List.map_cons, scanRects, hf]
      rw [ih]

lemma scanLines_mark (p : Vec3) (h : Option EntityRef) :
    ∀ (ls : List StoredLine) (i0 i : Nat) (st : ScanState),
    scanLines p (markLines h ls i0) i st = scanLines p ls i st := by
  intro ls
  induction ls with
  | nil => intro i0 i st; simp [markLines]
  | cons e rest ih =>
      intro i0 i st
      simp only [markLines, scanLines]
      rw [ih (i0 + 1)]

lemma scanCircles_mark (p : Vec3) (h : Option EntityRef) :
    ∀ (cs : List StoredCircle) (i0 i : Nat) (st : ScanState),
    scanCircles p (markCircles h cs i0) i st = scanCircles p cs i st := by
  intro cs
  induction cs with
  | nil => intro i0 i st; simp [markCircles]
  | cons e rest ih =>
      intro i0 i st
      simp only [markCircles, scanCircles]
      rw [ih (i0 + 1)]

lemma scanRects_mark (p : Vec3) (h : Option EntityRef) :
    ∀ (rs : List StoredRect) (i0 i : Nat) (st : ScanState),
    scanRects p (markRects h rs i0) i st = scanRects p rs i st := by
  intro rs
  induction rs with
  | nil => intro i0 i st; simp [markRects]
  | cons e rest ih =>
      intro i0 i st
      simp only [markRects, scanRects]
      rw [ih (i0 + 1)]

lemma selectionHit_applySelection (p : Vec3) (h : Option EntityRef) (s : SketchStore) :
    selectionHit p (applySelection h s) = selectionHit p s := by
  unfold selectionHit applySelection
  rw [scanLines_mark, scanCircles_mark, scanRects_mark]

lemma selectionHit_hideAll (p : Vec3) (s : SketchStore) :
    selectionHit p (hideAllStore s) = selectionHit p s := by
  unfold selectionHit hideAllStore
  dsimp only
  rw [scanLines_map p (fun e => { e with hidden := true }) (fun _ => rfl),
    scanCircles_map p (fun e => { e with hidden := true }) (fun _ => rfl),
    scanRects_map p (fun e => { e with hidden := true }) (fun _ => rfl)]

/-! Characterization of the selection-flag rewrite. -/

lemma markLines_get (h : Option EntityRef) : ∀ (ls : List StoredLine) (i j : Nat),
    (markLines h ls i)[j]? =
      (ls[j]?).map (fun e => { e with sel := decide (h = some (EntityRef.line (i + j))) }) := by
  intro ls
  induction ls with
  | nil => intro i j; simp [markLines]
  | cons f rest ih =>
      intro i j
      cases j with
      | zero => simp [markLines]
      | succ j =>
          simp only [markLines, List.getElem?_cons_succ]
          rw [ih (i + 1) j, (by omega : i + 1 + j = i + (j + 1))]

lemma markCircles_get (h : Option EntityRef) : ∀ (cs : List StoredCircle) (i j : Nat),
    (markCircles h cs i)[j]? =
      (cs[j]?).map (fun e => { e with sel := decide (h = some (EntityRef.circle (i + j))) }) := by
  intro cs
  induction cs with
  | nil => intro i j; simp [markCircles]
  | cons f rest ih =>
      intro i j
      cases j with
      | zero => simp [markCircles]
      | succ j =>
          simp only [markCircles, List.getElem?_cons_succ]
          rw [ih (i + 1) j, (by omega : i + 1 + j = i + (j + 1))]

lemma markRects_get (h : Option EntityRef) : ∀ (rs : List StoredRect) (i j : Nat),
    (markRects h rs i)[j]? =
      (rs[j]?).map (fun e => { e with sel := decide (h = some (EntityRef.rect (i + j))) }) := by
  intro rs
  induction rs with
  | nil => intro i j; simp [markRects]
  | cons f rest ih =>
      intro i j
      cases j with
      | zero => simp [markRects]
      | succ j =>
          simp only [markRects, List.getElem?_cons_succ]
          rw [ih (i + 1) j, (by omega : i + 1 + j = i + (j + 1))]

lemma markLines_sel_false : ∀ (ls : List StoredLine) (i : Nat),
    ∀ e ∈ markLines none ls i, e.sel = false := by
  intro ls
  induction ls with
  | nil => intro i e he; simp [markLines] at he
  | cons f rest ih =>
      intro i e he
      simp only [markLines, List.mem_cons] at he
      rcases he with he | he
      · subst he; simp
      · exact ih (i + 1) e he

lemma markCircles_sel_false : ∀ (cs : List StoredCircle) (i : Nat),
    ∀ e ∈ markCircles none cs i, e.sel = false := by
  intro cs
  induction cs with
  | nil => intro i e he; simp [markCircles] at he
  | cons f rest ih =>
      intro i e he
      simp only [markCircles, List.mem_cons] at he
      rcases he with he | he
      · subst he; simp
      · exact ih (i + 1) e he

lemma markRects_sel_false : ∀ (rs : List StoredRect) (i : Nat),
    ∀ e ∈ markRects none rs i, e.sel = false := by
  intro rs
  induction rs with
  | nil => intro i e he; simp [markRects] at he
  | cons f rest ih =>
      intro i e he
      simp only [markRects, List.mem_cons] at he
      rcases he with he | he
      · subst he; simp
      · exact ih (i + 1) e he

lemma applySelection_none (s : SketchStore) : storeNoneSelected (applySelection none s) :=
  ⟨markLines_sel_false s.lines 0, markCircles_sel_false s.circles 0,
   markRects_sel_false s.rects 0⟩

lemma isSelected_applySelection (h : Option EntityRef) (s : SketchStore) (r : EntityRef) :
    isSelected (applySelection h s) r ↔ h = some r ∧ refValid s r := by
  cases r with
  | line i =>
      show (∃ e, (markLines h s.lines 0)[i]? = some e ∧ e.sel = true) ↔ _
      rw [markLines_get h s.lines 0 i]
      cases hg : s.lines[i]? with
      | none => simp [refValid, hg]
      | some e => simp [refValid, hg, decide_eq_true_eq]
  | circle i =>
      show (∃ e, (markCircles h s.circles 0)[i]? = some e ∧ e.sel = true) ↔ _
      rw [markCircles_get h s.circles 0 i]
      cases hg : s.circles[i]? with
      | none => simp [refValid, hg]
      | some e => simp [refValid, hg, decide_eq_true_eq]
  | rect i =>
      show (∃ e, (markRects h s.rects 0)[i]? = some e ∧ e.sel = true) ↔ _
      rw [markRects_get h s.rects 0 i]
      cases hg : s.rects[i]? with
      | none => simp [refValid, hg]
      | some e => simp [refValid, hg, decide_eq_true_eq]

lemma selectionHit_valid (p : Vec3) (s : SketchStore) (r : EntityRef) :
    selectionHit p s = some r → refValid s r := by
  intro h
  unfold selectionHit at h
  rcases scanRects_cases p s.rects 0
      (scanCircles p s.circles 0 (scanLines p s.lines 0 initScan)) with hR | ⟨j, e, hj, _, hR⟩
  · rw [hR] at h
    rcases scanCircles_cases p s.circles 0 (scanLines p s.lines 0 initScan)
        with hC | ⟨j, e, hj, _, hC⟩
    · rw [hC] at h
      rcases scanLines_cases p s.lines 0 initScan with hL | ⟨j, e, hj, _, hL⟩
      · rw [hL] at h
        simp [initScan] at h
      · rw [hL] at h
        simp only [Nat.zero_add] at h
        obtain rfl : EntityRef.line j = r := by simpa using h
        exact ⟨e, hj⟩
    · rw [hC] at h
      simp only [Nat.zero_add] at h
      obtain rfl : EntityRef.circle j = r := by simpa using h
      exact ⟨e, hj⟩
  · rw [hR] at h
    simp only [Nat.zero_add] at h
    obtain rfl : EntityRef.rect j = r := by simpa using h
    exact ⟨e, hj⟩

lemma sel_iff (p : Vec3) (s : SketchStore) (r : EntityRef) :
    isSelected (selection_system p s) r ↔ selectionHit p s = some r := by
  rw [show selection_system p s = applySelection (selectionHit p s) s from rfl,
    isSelected_applySelection]
  exact ⟨fun hh => hh.1, fun hh => ⟨hh, selectionHit_valid p s r hh⟩⟩

/-! Facts about the extrude passes. -/

lemma extrudeLines_getFst (d : ℝ) : ∀ (ls : List StoredLine) (i : Nat),
    (extrudeLines d ls).1[i]? =
      (ls[i]?).map (fun e => if e.sel then { e with hidden := true } else e) := by
  intro ls
  induction ls with
  | nil => intro i; simp [extrudeLines]
  | cons e rest ih =>
      intro i
      cases i with
      | zero => simp [extrudeLines]
      | succ i =>
          simp only [extrudeLines, List.getElem?_cons_succ]
          exact ih i

lemma extrudeCircles_getFst (d : ℝ) : ∀ (cs : List StoredCircle) (i : Nat),
    (extrudeCircles d cs).1[i]? =
      (cs[i]?).map (fun e => if e.sel then { e with hidden := true } else e) := by
  intro cs
  induction cs with
  | nil => intro i; simp [extrudeCircles]
  | cons e rest ih =>
      intro i
      cases i with
      | zero => simp [extrudeCircles]
      | succ i =>
          simp only [extrudeCircles, List.getElem?_cons_succ]
          exact ih i

lemma extrudeRects_getFst (d : ℝ) : ∀ (rs : List StoredRect) (i : Nat),
    (extrudeRects d rs).1[i]? =
      (rs[i]?).map (fun e => if e.sel then { e with hidden := true } else e) := by
  intro rs
  induction rs with
  | nil => intro i; simp [extrudeRects]
  | cons e rest ih =>
      intro i
      cases i with
      | zero => simp [extrudeRects]
      | succ i =>
          simp only [extrudeRects, List.getElem?_cons_succ]
          exact ih i

lemma extrudeLines_mem (d : ℝ) : ∀ (ls : List StoredLine) (j : Nat) (e : StoredLine),
    ls[j]? = some e → e.sel = true →
    Solid.surface (extrudeLineMesh e.line d) ∈ (extrudeLines d ls).2 := by
  intro ls
  induction ls with
  | nil => intro j e hj _; simp at hj
  | cons f rest ih =>
      intro j e hj hsel
      cases j with
      | zero =>
          simp only [List.getElem?_cons_zero, Option.some.injEq] at hj
          subst hj
          simp only [extrudeLines]
          rw [if_pos hsel]
          exact List.mem_cons_self _ _
      | succ j =>
          simp only [List.getElem?_cons_succ] at hj
          simp only [extrudeLines]
          by_cases hf : f.sel = true
          · rw [if_pos hf]
            exact List.mem_cons_of_mem _ (ih j e hj hsel)
          · rw [if_neg hf]
            exact ih j e hj hsel

lemma extrudeCircles_mem (d : ℝ) : ∀ (cs : List StoredCircle) (j : Nat) (e : StoredCircle),
    cs[j]? = some e → e.sel = true →
    Solid.cylinder e.circle.radius d ⟨e.circle.center.x, d / 2, e.circle.center.z⟩ ∈
      (extrudeCircles d cs).2 := by
  intro cs
  induction cs with
  | nil => intro j e hj _; simp at hj
  | cons f rest ih =>
      intro j e hj hsel
      cases j with
      | zero =>
          simp only [List.getElem?_cons_zero, Option.some.injEq] at hj
          subst hj
          simp only [extrudeCircles]
          rw [if_pos hsel]
          exact List.mem_cons_self _ _
      | succ j =>
          simp only [List.getElem?_cons_succ] at hj
          simp only [extrudeCircles]
          by_cases hf : f.sel = true
          · rw [if_pos hf]
            exact List.mem_cons_of_mem _ (ih j e hj hsel)
          · rw [if_neg hf]
            exact ih j e hj hsel


/-! Claim theorems. -/

/-- C10: the point-to-segment distance helper is total: when the two
endpoints coincide (zero squared length) it returns the squared
distance from the query point to that single point instead of dividing
by zero; otherwise it returns the clamped-projection squared distance
(distance to `a` when the projection parameter is below 0, to `b` when
it exceeds 1, else the distance to the projection point); and the
result is always non-negative. -/
theorem C10_segment_distance_total (p a b : Vec3) :
    0 ≤ point_line_segment_distance_sq p a b
    ∧ ((b.sub a).lengthSquared = 0 →
        point_line_segment_distance_sq p a b = (p.sub a).lengthSquared)
    ∧ ((b.sub a).lengthSquared ≠ 0 →
        (((p.sub a).dot (b.sub a) / (b.sub a).lengthSquared < 0 →
            point_line_segment_distance_sq p a b = (p.sub a).lengthSquared)
         ∧ (1 < (p.sub a).dot (b.sub a) / (b.sub a).lengthSquared →
            point_line_segment_distance_sq p a b = (p.sub b).lengthSquared)
         ∧ (0 ≤ (p.sub a).dot (b.sub a) / (b.sub a).lengthSquared →
            (p.sub a).dot (b.sub a) / (b.sub a).lengthSquared ≤ 1 →
            point_line_segment_distance_sq p a b =
              (p.sub (a.add (Vec3.smul ((p.sub a).dot (b.sub a) / (b.sub a).lengthSquared)
                (b.sub a)))).lengthSquared))) := by
  refine ⟨plsd_nonneg p a b, ?_, ?_⟩
  · intro h0
    unfold point_line_segment_distance_sq
    rw [if_pos h0]
  · intro h0
    refine ⟨?_, ?_, ?_⟩
    · intro ht
      unfold point_line_segment_distance_sq
      rw [if_neg h0, if_pos ht]
    · intro ht
      unfold point_line_segment_distance_sq
      rw [if_neg h0, if_neg (not_lt.mpr (le_of_lt (lt_trans zero_lt_one ht))), if_pos ht]
    · intro ht1 ht2
      unfold point_line_segment_distance_sq
      rw [if_neg h0, if_neg (not_lt.mpr ht1), if_neg (not_lt.mpr ht2)]

/-- C10 witness: the degenerate-segment branch evaluated at a concrete
input, together with non-negativity there. -/
theorem C10_segment_distance_witness :
    point_line_segment_distance_sq ⟨0, 0, 0⟩ ⟨1, 0, 1⟩ ⟨1, 0, 1⟩ =
      Vec3.lengthSquared (Vec3.sub ⟨0, 0, 0⟩ ⟨1, 0, 1⟩)
    ∧ 0 ≤ point_line_segment_distance_sq ⟨0, 0, 0⟩ ⟨1, 0, 1⟩ ⟨1, 0, 1⟩ :=
  ⟨(C10_segment_distance_total ⟨0, 0, 0⟩ ⟨1, 0, 1⟩ ⟨1, 0, 1⟩).2.1
      (by norm_num [Vec3.sub, Vec3.lengthSquared, Vec3.dot]),
   (C10_segment_distance_total ⟨0, 0, 0⟩ ⟨1, 0, 1⟩ ⟨1, 0, 1⟩).1⟩

/-- C3 counterexample: a store holding one line survives
`on_sketch_exit` untouched, refuting that the store is emptied on every
transition out of Sketching mode. -/
theorem C3_exit_keeps_store_counterexample :
    (on_sketch_exit ⟨⟨[⟨⟨⟨0, 0, 0⟩, ⟨1, 0, 0⟩⟩, false, false⟩], [], []⟩,
        ⟨none, 0⟩⟩).store.lines ≠ [] := by
  simp [on_sketch_exit]

/-- C3 amended: entering Sketching empties the store and resets the
anchor and extrude distance to their defaults; exiting resets only the
anchor and extrude distance and leaves the store (primitives and
selection flags) unchanged. -/
theorem C3_mode_transition_reset (m : AppModel) :
    on_sketch_enter m = ⟨emptyStore, defaultSketchData⟩
    ∧ (on_sketch_exit m).sketch_data = defaultSketchData
    ∧ (on_sketch_exit m).store = m.store :=
  ⟨rfl, rfl, rfl⟩

/-- C4 counterexample: a right-click just-press while the cursor does
not project onto the sketch plane leaves a pending anchor in place,
refuting that the cancel applies in every cursor state. -/
theorem C4_cancel_requires_projection_counterexample :
    (sketching_system false none false true ActiveSketchTool.Line
        ⟨some ⟨1, 0, 1⟩, 0⟩ emptyStore).1.start_point = some ⟨1, 0, 1⟩ := by
  simp [sketching_system]

/-- C4 amended: when the UI does not capture the pointer and the cursor
projects onto the sketch plane, a right-click just-press clears any
pending anchor for every tool (even alongside a primary press); with no
simultaneous primary press it commits nothing and keeps the extrude
distance; and with no pending anchor it leaves all state unchanged. -/
theorem C4_cancel_gesture (tool : ActiveSketchTool) (data : SketchData) (s : SketchStore)
    (wp : Vec3) (left : Bool) :
    (sketching_system false (some wp) left true tool data s).1.start_point = none
    ∧ ((sketching_system false (some wp) false true tool data s).2 = s
       ∧ (sketching_system false (some wp) false true tool data s).1.extrude_distance =
           data.extrude_distance)
    ∧ (data.start_point = none →
        sketching_system false (some wp) false true tool data s = (data, s)) := by
  refine ⟨?_, ⟨?_, ?_⟩, ?_⟩
  · simp [sketching_system]
  · simp [sketching_system]
  · simp [sketching_system]
  · intro h0
    cases data with
    | mk sp ed =>
        obtain rfl : sp = none := h0
        simp [sketching_system]

/-- C4 witness: the amended cancel evaluated with no pending anchor is
a strict no-op at a concrete input. -/
theorem C4_cancel_witness :
    sketching_system false (some ⟨2, 0, 2⟩) false true ActiveSketchTool.Circle
        ⟨none, 3⟩ emptyStore = (⟨none, 3⟩, emptyStore) :=
  (C4_cancel_gesture ActiveSketchTool.Circle ⟨none, 3⟩ emptyStore ⟨2, 0, 2⟩ false).2.2 rfl

/-- C6: a second primary click at `B` while anchor `A` is pending
commits exactly one primitive per the active tool (Line endpoints
`(A, B)` in that order; Circle center `A`, radius the distance from `A`
to `B`; Rectangle corners `(A, B)`), appends it to the store leaving
the other lists untouched, and clears the pending anchor. -/
theorem C6_two_click_commit (A B : Vec3) (d : ℝ) (right : Bool)
    (tool : ActiveSketchTool) (s : SketchStore) :
    ((sketching_system false (some B) true right tool ⟨some A, d⟩ s).1.start_point = none
      ∧ (sketching_system false (some B) true right tool ⟨some A, d⟩ s).1.extrude_distance = d)
    ∧ (tool = ActiveSketchTool.Line →
        (sketching_system false (some B) true right tool ⟨some A, d⟩ s).2 =
          { s with lines := s.lines ++ [⟨⟨A, B⟩, false, false⟩] })
    ∧ (tool = ActiveSketchTool.Circle →
        (sketching_system false (some B) true right tool ⟨some A, d⟩ s).2 =
          { s with circles := s.circles ++ [⟨⟨A, Vec3.distance A B⟩, false, false⟩] })
    ∧ (tool = ActiveSketchTool.Rectangle →
        (sketching_system false (some B) true right tool ⟨some A, d⟩ s).2 =
          { s with rects := s.rects ++ [⟨⟨A, B⟩, false, false⟩] }) := by
  refine ⟨⟨?_, ?_⟩, ?_, ?_, ?_⟩
  · cases right <;> simp [sketching_system]
  · cases right <;> simp [sketching_system]
  · intro ht; subst ht; cases right <;> simp [sketching_system, spawnLine]
  · intro ht; subst ht; cases right <;> simp [sketching_system, spawnCircle]
  · intro ht; subst ht; cases right <;> simp [sketching_system, spawnRect]

/-- C6 witness: the Line gesture evaluated at concrete anchor and
click points. -/
theorem C6_two_click_witness :
    (sketching_system false (some ⟨1, 0, 2⟩) true false ActiveSketchTool.Line
        ⟨some ⟨0, 0, 0⟩, 5⟩ emptyStore).2 =
      { emptyStore with lines := emptyStore.lines ++ [⟨⟨⟨0, 0, 0⟩, ⟨1, 0, 2⟩⟩, false, false⟩] } :=
  (C6_two_click_commit ⟨0, 0, 0⟩ ⟨1, 0, 2⟩ 5 false ActiveSketchTool.Line emptyStore).2.1 rfl

/-- C7: extruding a selected line by `d` emits a planar quad with
vertices exactly `p1, p2, p2 + d*Y, p1 + d*Y` in that order, the up
axis as the normal of all four vertices, and exactly the two triangles
`(0,1,2)` and `(0,2,3)`; on a store whose only entity is that selected
line it is the single emitted solid. -/
theorem C7_extrude_line_quad (s : SketchStore) (d : ℝ) (i : Nat) (e : StoredLine)
    (hget : s.lines[i]? = some e) (hsel : e.sel = true) :
    Solid.surface
        { positions := [e.line.p1, e.line.p2, e.line.p2.add (Vec3.smul d upAxis),
            e.line.p1.add (Vec3.smul d upAxis)]
        , normals := [upAxis, upAxis, upAxis, upAxis]
        , uvs := [(0, 0), (1, 0), (1, 1), (0, 1)]
        , indices := [0, 1, 2, 0, 2, 3] } ∈ (extrude_system s d).2
    ∧ ∀ (l : SketchLine) (hid : Bool),
        (extrude_system ⟨[⟨l, true, hid⟩], [], []⟩ d).2 = [Solid.surface (extrudeLineMesh l d)] := by
  constructor
  · have hm := extrudeLines_mem d s.lines i e hget hsel
    show _ ∈ (extrudeLines d s.lines).2 ++ (extrudeCircles d s.circles).2 ++
      (extrudeRects d s.rects).2
    exact List.mem_append.mpr (Or.inl (List.mem_append.mpr (Or.inl hm)))
  · intro l hid
    simp [extrude_system, extrudeLines, extrudeCircles, extrudeRects]

/-- C7 witness: the quad emitted for a concrete selected line. -/
theorem C7_extrude_line_witness :
    Solid.surface
        { positions := [(⟨0, 0, 0⟩ : Vec3), ⟨1, 0, 0⟩, Vec3.add ⟨1, 0, 0⟩ (Vec3.smul 2 upAxis),
            Vec3.add ⟨0, 0, 0⟩ (Vec3.smul 2 upAxis)]
        , normals := [upAxis, upAxis, upAxis, upAxis]
        , uvs := [(0, 0), (1, 0), (1, 1), (0, 1)]
        , indices := [0, 1, 2, 0, 2, 3] } ∈
      (extrude_system ⟨[⟨⟨⟨0, 0, 0⟩, ⟨1, 0, 0⟩⟩, true, false⟩], [], []⟩ 2).2 :=
  (C7_extrude_line_quad ⟨[⟨⟨⟨0, 0, 0⟩, ⟨1, 0, 0⟩⟩, true, false⟩], [], []⟩ 2 0
    ⟨⟨⟨0, 0, 0⟩, ⟨1, 0, 0⟩⟩, true, false⟩ (by simp) rfl).1

/-- C8: extruding a selected circle by `d` emits a cylinder of the
circle's radius and height `d` translated to
`(center.x, d / 2, center.z)`; on a store whose only entity is that
selected circle it is the single emitted solid; in particular
center `(2,0,3)`, radius `1.5`, distance `4` yields a cylinder of
radius `1.5`, height `4`, centered at `(2,2,3)`. -/
theorem C8_extrude_circle_cylinder (s : SketchStore) (d : ℝ) (i : Nat) (e : StoredCircle)
    (hget : s.circles[i]? = some e) (hsel : e.sel = true) :
    Solid.cylinder e.circle.radius d ⟨e.circle.center.x, d / 2, e.circle.center.z⟩ ∈
      (extrude_system s d).2
    ∧ (∀ (c : SketchCircle) (hid : Bool),
        (extrude_system ⟨[], [⟨c, true, hid⟩], []⟩ d).2 =
          [Solid.cylinder c.radius d ⟨c.center.x, d / 2, c.center.z⟩])
    ∧ (extrude_system ⟨[], [⟨⟨⟨2, 0, 3⟩, 1.5⟩, true, false⟩], []⟩ 4).2 =
        [Solid.cylinder 1.5 4 ⟨2, 2, 3⟩] := by
  refine ⟨?_, ?_, ?_⟩
  · have hm := extrudeCircles_mem d s.circles i e hget hsel
    show _ ∈ (extrudeLines d s.lines).2 ++ (extrudeCircles d s.circles).2 ++
      (extrudeRects d s.rects).2
    exact List.mem_append.mpr (Or.inl (List.mem_append.mpr (Or.inr hm)))
  · intro c hid
    simp [extrude_system, extrudeLines, extrudeCircles, extrudeRects]
  · norm_num [extrude_system, extrudeLines, extrudeCircles, extrudeRects]

/-- C8 witness: the cylinder emitted for the spec's concrete example
circle. -/
theorem C8_extrude_circle_witness :
    Solid.cylinder (1.5 : ℝ) 4 ⟨2, 4 / 2, 3⟩ ∈
      (extrude_system ⟨[], [⟨⟨⟨2, 0, 3⟩, 1.5⟩, true, false⟩], []⟩ 4).2 :=
  (C8_extrude_circle_cylinder ⟨[], [⟨⟨⟨2, 0, 3⟩, 1.5⟩, true, false⟩], []⟩ 4 0
    ⟨⟨⟨2, 0, 3⟩, 1.5⟩, true, false⟩ (by simp) rfl).1


/-! Support lemmas for the hit-test competition claims. -/

lemma mem_of_getIdx {α : Type} {l : List α} {i : Nat} {a : α} (h : l[i]? = some a) :
    a ∈ l := by
  obtain ⟨hlt, rfl⟩ := List.getElem?_eq_some_iff.mp h
  exact List.getElem_mem hlt

lemma initScan_min : initScan.minDistSq = f32_MAX := rfl

lemma selectionHit_eq_fullScan (p : Vec3) (s : SketchStore) :
    selectionHit p s = (fullScan p s).closest := rfl

lemma refMetric_line (p : Vec3) (s : SketchStore) (i : Nat) (e : StoredLine)
    (h : s.lines[i]? = some e) : refMetric p s (EntityRef.line i) = lineMetric p e.line := by
  simp [refMetric, h]

lemma refMetric_circle (p : Vec3) (s : SketchStore) (i : Nat) (e : StoredCircle)
    (h : s.circles[i]? = some e) :
    refMetric p s (EntityRef.circle i) = circleMetric p e.circle := by
  simp [refMetric, h]

lemma refMetric_rect_hit (p : Vec3) (s : SketchStore) (i : Nat) (e : StoredRect)
    (h : s.rects[i]? = some e) (hh : rectHitProp p e.rect) :
    refMetric p s (EntityRef.rect i) = 0 := by
  simp [refMetric, h, hh]

lemma refMetric_lt_max (p : Vec3) (s : SketchStore) (r : EntityRef)
    (hr : withinTol p s r) : refMetric p s r < f32_MAX := by
  cases r with
  | line i =>
      obtain ⟨e, hget, hm⟩ := hr
      rw [refMetric_line p s i e hget]
      exact lt_trans hm tol_lt_max
  | circle i =>
      obtain ⟨e, hget, hm⟩ := hr
      rw [refMetric_circle p s i e hget]
      exact lt_trans hm tol_lt_max
  | rect i =>
      obtain ⟨e, hget, hh⟩ := hr
      rw [refMetric_rect_hit p s i e hget hh]
      exact f32_MAX_pos

lemma lcScan_facts (p : Vec3) (s : SketchStore) :
    lcScan p s = initScan ∨
    ∃ w, (lcScan p s).closest = some w ∧ withinTol p s w ∧
      refMetric p s w = (lcScan p s).minDistSq ∧
      ((∃ i, w = EntityRef.line i) ∨ (∃ i, w = EntityRef.circle i)) := by
  unfold lcScan
  rcases scanCircles_cases p s.circles 0 (scanLines p s.lines 0 initScan)
      with hC | ⟨j, e, hj, hm, hC⟩
  · rcases scanLines_cases p s.lines 0 initScan with hL | ⟨j, e, hj, hm, hL⟩
    · left
      rw [hC, hL]
    · right
      refine ⟨EntityRef.line j, ?_, ⟨e, hj, hm⟩, ?_, Or.inl ⟨j, rfl⟩⟩
      · rw [hC, hL]
        simp
      · rw [hC, hL, refMetric_line p s j e hj]
  · right
    refine ⟨EntityRef.circle j, ?_, ⟨e, hj, hm⟩, ?_, Or.inr ⟨j, rfl⟩⟩
    · rw [hC]
      simp
    · rw [hC, refMetric_circle p s j e hj]

lemma fullScan_min_le_lc (p : Vec3) (s : SketchStore) :
    (fullScan p s).minDistSq ≤ (lcScan p s).minDistSq :=
  scanRects_min_le p s.rects 0 (lcScan p s)

lemma fullScan_dom (p : Vec3) (s : SketchStore) (r : EntityRef) (hr : withinTol p s r) :
    (fullScan p s).minDistSq ≤ refMetric p s r := by
  cases r with
  | line i =>
      obtain ⟨e, hget, hm⟩ := hr
      rw [refMetric_line p s i e hget]
      refine le_trans (fullScan_min_le_lc p s) ?_
      unfold lcScan
      exact le_trans (scanCircles_min_le p s.circles 0 _)
        (scanLines_dom p s.lines 0 initScan i e hget hm)
  | circle i =>
      obtain ⟨e, hget, hm⟩ := hr
      rw [refMetric_circle p s i e hget]
      refine le_trans (fullScan_min_le_lc p s) ?_
      unfold lcScan
      exact scanCircles_dom p s.circles 0 _ i e hget hm
  | rect i =>
      obtain ⟨e, hget, hh⟩ := hr
      rw [refMetric_rect_hit p s i e hget hh]
      unfold fullScan
      exact scanRects_dom0 p s.rects 0 _ i e hget hh

lemma fullScan_cases (p : Vec3) (s : SketchStore) :
    fullScan p s = lcScan p s ∨
    ∃ j e, s.rects[j]? = some e ∧ rectHitProp p e.rect ∧
      fullScan p s = ⟨some (EntityRef.rect j), 0⟩ := by
  unfold fullScan
  rcases scanRects_cases p s.rects 0 (lcScan p s) with h | ⟨j, e, hj, hh, h⟩
  · left
    exact h
  · right
    refine ⟨j, e, hj, hh, ?_⟩
    rw [h]
    simp

/-- C5: among all primitives within tolerance the one with the smallest
effective metric wins the hit-test; a hit rectangle competes with
effective metric 0, so it beats every line or circle match with nonzero
residual metric, but does not displace a line or circle match whose
metric is exactly 0 (those are always scanned first). -/
theorem C5_tie_break (p : Vec3) (s : SketchStore) :
    (∀ r, withinTol p s r →
      ∃ w, selectionHit p s = some w ∧ withinTol p s w ∧
        refMetric p s w ≤ refMetric p s r)
    ∧ ((∃ (i : Nat) (e : StoredRect), s.rects[i]? = some e ∧ rectHitProp p e.rect) →
       (∀ r, withinTol p s r →
          ((∃ i, r = EntityRef.line i) ∨ (∃ i, r = EntityRef.circle i)) →
          refMetric p s r ≠ 0) →
       ∃ i, selectionHit p s = some (EntityRef.rect i))
    ∧ ((∃ r, ((∃ i, r = EntityRef.line i) ∨ (∃ i, r = EntityRef.circle i)) ∧
          withinTol p s r ∧ refMetric p s r = 0) →
       ∃ w, selectionHit p s = some w ∧
         ((∃ i, w = EntityRef.line i) ∨ (∃ i, w = EntityRef.circle i)) ∧
         refMetric p s w = 0) := by
  refine ⟨?_, ?_, ?_⟩
  · intro r hr
    have hmin := fullScan_dom p s r hr
    rcases fullScan_cases p s with hF | ⟨j, e, hj, hh, hF⟩
    · rcases lcScan_facts p s with hB | ⟨w, hcl, hwtol, hwm, hwlc⟩
      · exfalso
        rw [hF, hB, initScan_min] at hmin
        exact absurd hmin (not_le.mpr (refMetric_lt_max p s r hr))
      · refine ⟨w, ?_, hwtol, ?_⟩
        · rw [selectionHit_eq_fullScan, hF]
          exact hcl
        · rw [hwm, ← hF]
          exact hmin
    · refine ⟨EntityRef.rect j, ?_, ⟨e, hj, hh⟩, ?_⟩
      · rw [selectionHit_eq_fullScan, hF]
      · rw [refMetric_rect_hit p s j e hj hh]
        exact refMetric_nonneg p s r
  · rintro ⟨i, e, hget, hhit⟩ hnz
    have hdom : (fullScan p s).minDistSq ≤ 0 := by
      unfold fullScan
      exact scanRects_dom0 p s.rects 0 _ i e hget hhit
    rcases fullScan_cases p s with hF | ⟨j, e', hj, hh', hF⟩
    · exfalso
      rw [hF] at hdom
      rcases lcScan_facts p s with hB | ⟨w, hcl, hwtol, hwm, hwlc⟩
      · rw [hB, initScan_min] at hdom
        exact absurd hdom (not_le.mpr f32_MAX_pos)
      · have h0 : refMetric p s w = 0 :=
          le_antisymm (by rw [hwm]; exact hdom) (refMetric_nonneg p s w)
        exact hnz w hwtol hwlc h0
    · exact ⟨j, by rw [selectionHit_eq_fullScan, hF]⟩
  · rintro ⟨r, hlc, htol, hzero⟩
    have hBle : (lcScan p s).minDistSq ≤ 0 := by
      rcases hlc with ⟨i, rfl⟩ | ⟨i, rfl⟩
      · obtain ⟨e, hget, hm⟩ := htol
        rw [refMetric_line p s i e hget] at hzero
        unfold lcScan
        calc (scanCircles p s.circles 0 (scanLines p s.lines 0 initScan)).minDistSq
            ≤ (scanLines p s.lines 0 initScan).minDistSq := scanCircles_min_le p s.circles 0 _
          _ ≤ lineMetric p e.line := scanLines_dom p s.lines 0 initScan i e hget hm
          _ = 0 := hzero
      · obtain ⟨e, hget, hm⟩ := htol
        rw [refMetric_circle p s i e hget] at hzero
        unfold lcScan
        calc (scanCircles p s.circles 0 (scanLines p s.lines 0 initScan)).minDistSq
            ≤ circleMetric p e.circle := scanCircles_dom p s.circles 0 _ i e hget hm
          _ = 0 := hzero
    have hstay : fullScan p s = lcScan p s := by
      unfold fullScan
      exact scanRects_stay p s.rects 0 (lcScan p s) hBle
    rcases lcScan_facts p s with hB | ⟨w, hcl, hwtol, hwm, hwlc⟩
    · exfalso
      rw [hB, initScan_min] at hBle
      exact absurd hBle (not_le.mpr f32_MAX_pos)
    · refine ⟨w, ?_, hwlc, ?_⟩
      · rw [selectionHit_eq_fullScan, hstay]
        exact hcl
      · refine le_antisymm ?_ (refMetric_nonneg p s w)
        rw [hwm]
        exact hBle

/-- C5 witness: the minimality clause applied to a concrete store with
one line whose metric at the click is 0.0025, within tolerance. -/
theorem C5_tie_break_witness :
    withinTol ⟨0.5, 0, 0.05⟩ ⟨[⟨⟨⟨0, 0, 0⟩, ⟨1, 0, 0⟩⟩, false, false⟩], [], []⟩
        (EntityRef.line 0)
    ∧ ∃ w, selectionHit ⟨0.5, 0, 0.05⟩
          ⟨[⟨⟨⟨0, 0, 0⟩, ⟨1, 0, 0⟩⟩, false, false⟩], [], []⟩ = some w ∧
        withinTol ⟨0.5, 0, 0.05⟩ ⟨[⟨⟨⟨0, 0, 0⟩, ⟨1, 0, 0⟩⟩, false, false⟩], [], []⟩ w ∧
        refMetric ⟨0.5, 0, 0.05⟩ ⟨[⟨⟨⟨0, 0, 0⟩, ⟨1, 0, 0⟩⟩, false, false⟩], [], []⟩ w ≤
          refMetric ⟨0.5, 0, 0.05⟩ ⟨[⟨⟨⟨0, 0, 0⟩, ⟨1, 0, 0⟩⟩, false, false⟩], [], []⟩
            (EntityRef.line 0) := by
  have htol : withinTol ⟨0.5, 0, 0.05⟩
      ⟨[⟨⟨⟨0, 0, 0⟩, ⟨1, 0, 0⟩⟩, false, false⟩], [], []⟩ (EntityRef.line 0) := by
    show ∃ e, (⟨[⟨⟨⟨0, 0, 0⟩, ⟨1, 0, 0⟩⟩, false, false⟩], [], []⟩ :
        SketchStore).lines[0]? = some e ∧ lineMetric ⟨0.5, 0, 0.05⟩ e.line < tolerance_sq
    refine ⟨⟨⟨⟨0, 0, 0⟩, ⟨1, 0, 0⟩⟩, false, false⟩, by simp, ?_⟩
    norm_num [lineMetric, point_line_segment_distance_sq, Vec3.sub, Vec3.dot,
      Vec3.lengthSquared, Vec3.add, Vec3.smul, tolerance_sq]
  exact ⟨htol, (C5_tie_break ⟨0.5, 0, 0.05⟩
    ⟨[⟨⟨⟨0, 0, 0⟩, ⟨1, 0, 0⟩⟩, false, false⟩], [], []⟩).1 (EntityRef.line 0) htol⟩

/-- C9: selection is exclusive: after a selection click an entity is
selected exactly when it is the hit-test winner, at most one entity is
selected, and selecting `X` then `Y` leaves exactly `Y` selected. -/
theorem C9_exclusive_selection (p : Vec3) (s : SketchStore) :
    (∀ r, isSelected (selection_system p s) r ↔ selectionHit p s = some r)
    ∧ (∀ r1 r2, isSelected (selection_system p s) r1 →
        isSelected (selection_system p s) r2 → r1 = r2)
    ∧ (∀ (q : Vec3) (y : EntityRef),
        selectionHit q (selection_system p s) = some y →
        ∀ r, (isSelected (selection_system q (selection_system p s)) r ↔ r = y)) := by
  refine ⟨fun r => sel_iff p s r, ?_, ?_⟩
  · intro r1 r2 h1 h2
    have e1 := (sel_iff p s r1).mp h1
    have e2 := (sel_iff p s r2).mp h2
    rw [e1] at e2
    exact Option.some.inj e2
  · intro q y hy r
    rw [sel_iff q (selection_system p s) r, hy]
    constructor
    · intro hh
      exact (Option.some.inj hh).symm
    · intro hh
      rw [hh]

/-- C9 witness: on a store with two lines, clicking the first then the
second leaves exactly the second selected. -/
theorem C9_exclusive_selection_witness :
    isSelected (selection_system ⟨5.5, 0, 5⟩ (selection_system ⟨0.5, 0, 0⟩
        ⟨[⟨⟨⟨0, 0, 0⟩, ⟨1, 0, 0⟩⟩, false, false⟩,
          ⟨⟨⟨5, 0, 5⟩, ⟨6, 0, 5⟩⟩, false, false⟩], [], []⟩)) (EntityRef.line 1)
    ∧ ¬ isSelected (selection_system ⟨5.5, 0, 5⟩ (selection_system ⟨0.5, 0, 0⟩
        ⟨[⟨⟨⟨0, 0, 0⟩, ⟨1, 0, 0⟩⟩, false, false⟩,
          ⟨⟨⟨5, 0, 5⟩, ⟨6, 0, 5⟩⟩, false, false⟩], [], []⟩)) (EntityRef.line 0) := by
  have hq : selectionHit ⟨5.5, 0, 5⟩ (selection_system ⟨0.5, 0, 0⟩
      ⟨[⟨⟨⟨0, 0, 0⟩, ⟨1, 0, 0⟩⟩, false, false⟩,
        ⟨⟨⟨5, 0, 5⟩, ⟨6, 0, 5⟩⟩, false, false⟩], [], []⟩) = some (EntityRef.line 1) := by
    rw [show selection_system ⟨0.5, 0, 0⟩
        ⟨[⟨⟨⟨0, 0, 0⟩, ⟨1, 0, 0⟩⟩, false, false⟩,
          ⟨⟨⟨5, 0, 5⟩, ⟨6, 0, 5⟩⟩, false, false⟩], [], []⟩ =
        applySelection (selectionHit ⟨0.5, 0, 0⟩
          ⟨[⟨⟨⟨0, 0, 0⟩, ⟨1, 0, 0⟩⟩, false, false⟩,
            ⟨⟨⟨5, 0, 5⟩, ⟨6, 0, 5⟩⟩, false, false⟩], [], []⟩)
          ⟨[⟨⟨⟨0, 0, 0⟩, ⟨1, 0, 0⟩⟩, false, false⟩,
            ⟨⟨⟨5, 0, 5⟩, ⟨6, 0, 5⟩⟩, false, false⟩], [], []⟩ from rfl,
      selectionHit_applySelection]
    norm_num [selectionHit, scanLines, scanCircles, scanRects, initScan, lineMetric,
      point_line_segment_distance_sq, Vec3.sub, Vec3.dot, Vec3.lengthSquared, Vec3.add,
      Vec3.smul, tolerance_sq, f32_MAX]
  have h := (C9_exclusive_selection ⟨0.5, 0, 0⟩
      ⟨[⟨⟨⟨0, 0, 0⟩, ⟨1, 0, 0⟩⟩, false, false⟩,
        ⟨⟨⟨5, 0, 5⟩, ⟨6, 0, 5⟩⟩, false, false⟩], [], []⟩).2.2 ⟨5.5, 0, 5⟩
      (EntityRef.line 1) hq
  constructor
  · exact (h (EntityRef.line 1)).mpr rfl
  · intro hbad
    have hcontra := (h (EntityRef.line 0)).mp hbad
    simp at hcontra

/-- C1 counterexample: a click at the center of a large rectangle is
farther than the tolerance from the rectangle's boundary, yet the
hit-test selects the rectangle (its hit predicate accepts interior
points), so selection is not cleared to none. -/
theorem C1_far_click_counterexample :
    0.1 < rectBoundaryDistance ⟨0, 0, 0⟩ ⟨⟨-10, 0, -10⟩, ⟨10, 0, 10⟩⟩
    ∧ selectionHit ⟨0, 0, 0⟩ ⟨[], [], [⟨⟨⟨-10, 0, -10⟩, ⟨10, 0, 10⟩⟩, false, false⟩]⟩ =
        some (EntityRef.rect 0)
    ∧ ¬ storeNoneSelected (selection_system ⟨0, 0, 0⟩
        ⟨[], [], [⟨⟨⟨-10, 0, -10⟩, ⟨10, 0, 10⟩⟩, false, false⟩]⟩) := by
  have hhit : selectionHit ⟨0, 0, 0⟩
      ⟨[], [], [⟨⟨⟨-10, 0, -10⟩, ⟨10, 0, 10⟩⟩, false, false⟩]⟩ = some (EntityRef.rect 0) := by
    norm_num [selectionHit, scanLines, scanCircles, scanRects, initScan, rectHitProp,
      rectMinX, rectMaxX, rectMinZ, rectMaxZ, f32_MAX, min_def, max_def]
  refine ⟨?_, hhit, ?_⟩
  · have h1 : point_line_segment_distance_sq ⟨0, 0, 0⟩ ⟨-10, 0, -10⟩ ⟨-10, 0, 10⟩ = 100 := by
      norm_num [point_line_segment_distance_sq, Vec3.sub, Vec3.dot, Vec3.lengthSquared,
        Vec3.add, Vec3.smul]
    have h2 : point_line_segment_distance_sq ⟨0, 0, 0⟩ ⟨-10, 0, 10⟩ ⟨10, 0, 10⟩ = 100 := by
      norm_num [point_line_segment_distance_sq, Vec3.sub, Vec3.dot, Vec3.lengthSquared,
        Vec3.add, Vec3.smul]
    have h3 : point_line_segment_distance_sq ⟨0, 0, 0⟩ ⟨10, 0, 10⟩ ⟨10, 0, -10⟩ = 100 := by
      norm_num [point_line_segment_distance_sq, Vec3.sub, Vec3.dot, Vec3.lengthSquared,
        Vec3.add, Vec3.smul]
    have h4 : point_line_segment_distance_sq ⟨0, 0, 0⟩ ⟨10, 0, -10⟩ ⟨-10, 0, -10⟩ = 100 := by
      norm_num [point_line_segment_distance_sq, Vec3.sub, Vec3.dot, Vec3.lengthSquared,
        Vec3.add, Vec3.smul]
    have hsq : Real.sqrt 100 = 10 := sqrt_eq_of_mul_self (by norm_num) (by norm_num)
    norm_num [rectBoundaryDistance, segmentDistance, h1, h2, h3, h4, hsq]
  · intro hns
    have hisel : isSelected (selection_system ⟨0, 0, 0⟩
        ⟨[], [], [⟨⟨⟨-10, 0, -10⟩, ⟨10, 0, 10⟩⟩, false, false⟩]⟩) (EntityRef.rect 0) :=
      (sel_iff _ _ _).mpr hhit
    obtain ⟨e, hget, hsel⟩ := hisel
    have hfalse := hns.2.2 e (mem_of_getIdx hget)
    rw [hfalse] at hsel
    exact Bool.false_ne_true hsel

/-- C1 amended: for every click point farther than the tolerance 0.1
from every line segment and from every circle circumference, and
failing the code's rectangle hit predicate for every rectangle (neither
inside its bounding box nor within 0.1 of one of its four border
coordinate lines), the hit-test returns no winner and the selection
click leaves no primitive selected. -/
theorem C1_far_click_clears_selection (p : Vec3) (s : SketchStore)
    (hl : ∀ e ∈ s.lines, 0.1 < segmentDistance p e.line.p1 e.line.p2)
    (hc : ∀ e ∈ s.circles, 0.1 < circumferenceDistance p e.circle)
    (hr : ∀ e ∈ s.rects, ¬ rectHitProp p e.rect) :
    selectionHit p s = none ∧ storeNoneSelected (selection_system p s) := by
  have hl' : ∀ e ∈ s.lines, ¬ lineMetric p e.line < tolerance_sq := by
    intro e he
    have h1 := hl e he
    have hnn : 0 ≤ lineMetric p e.line := lineMetric_nonneg p e.line
    have h2 : (0.1 : ℝ) * 0.1 <
        segmentDistance p e.line.p1 e.line.p2 * segmentDistance p e.line.p1 e.line.p2 :=
      mul_self_lt_mul_self (by norm_num) h1
    rw [show segmentDistance p e.line.p1 e.line.p2 * segmentDistance p e.line.p1 e.line.p2 =
        lineMetric p e.line from Real.mul_self_sqrt hnn] at h2
    exact not_lt.mpr (le_of_lt h2)
  have hc' : ∀ e ∈ s.circles, ¬ circleMetric p e.circle < tolerance_sq := by
    intro e he
    have h1 := hc e he
    have h2 : (0.1 : ℝ) * 0.1 <
        circumferenceDistance p e.circle * circumferenceDistance p e.circle :=
      mul_self_lt_mul_self (by norm_num) h1
    have h3 : circumferenceDistance p e.circle * circumferenceDistance p e.circle =
        circleMetric p e.circle := by
      unfold circumferenceDistance circleMetric Vec3.distance
      rw [abs_mul_abs_self]
      ring
    rw [h3] at h2
    exact not_lt.mpr (le_of_lt h2)
  have hnone : selectionHit p s = none := by
    unfold selectionHit
    rw [scanLines_noop p s.lines 0 initScan hl', scanCircles_noop p s.circles 0 initScan hc',
      scanRects_noop p s.rects 0 initScan hr]
    rfl
  refine ⟨hnone, ?_⟩
  rw [show selection_system p s = applySelection (selectionHit p s) s from rfl, hnone]
  exact applySelection_none s

/-- C1 witness: the amended claim applied to a concrete store with one
line, one circle and one rectangle, all far from the click. -/
theorem C1_far_click_witness :
    selectionHit ⟨0, 0, 3⟩ ⟨[⟨⟨⟨0, 0, 0⟩, ⟨1, 0, 0⟩⟩, false, false⟩],
        [⟨⟨⟨0, 0, 0⟩, 1⟩, false, false⟩],
        [⟨⟨⟨5, 0, 5⟩, ⟨6, 0, 6⟩⟩, false, false⟩]⟩ = none
    ∧ storeNoneSelected (selection_system ⟨0, 0, 3⟩
        ⟨[⟨⟨⟨0, 0, 0⟩, ⟨1, 0, 0⟩⟩, false, false⟩],
         [⟨⟨⟨0, 0, 0⟩, 1⟩, false, false⟩],
         [⟨⟨⟨5, 0, 5⟩, ⟨6, 0, 6⟩⟩, false, false⟩]⟩) := by
  apply C1_far_click_clears_selection
  · intro e he
    simp only [List.mem_singleton] at he
    subst he
    show (0.1 : ℝ) < segmentDistance ⟨0, 0, 3⟩ ⟨0, 0, 0⟩ ⟨1, 0, 0⟩
    have h9 : point_line_segment_distance_sq ⟨0, 0, 3⟩ ⟨0, 0, 0⟩ ⟨1, 0, 0⟩ = 9 := by
      norm_num [point_line_segment_distance_sq, Vec3.sub, Vec3.dot, Vec3.lengthSquared,
        Vec3.add, Vec3.smul]
    unfold segmentDistance
    rw [h9, sqrt_eq_of_mul_self (by norm_num) (by norm_num : (3 : ℝ) * 3 = 9)]
    norm_num
  · intro e he
    simp only [List.mem_singleton] at he
    subst he
    show (0.1 : ℝ) < circumferenceDistance ⟨0, 0, 3⟩ ⟨⟨0, 0, 0⟩, 1⟩
    have h9 : Vec3.distanceSquared ⟨0, 0, 3⟩ ⟨0, 0, 0⟩ = 9 := by
      norm_num [Vec3.distanceSquared, Vec3.sub, Vec3.lengthSquared, Vec3.dot]
    unfold circumferenceDistance Vec3.distance
    dsimp only
    rw [h9, sqrt_eq_of_mul_self (by norm_num) (by norm_num : (3 : ℝ) * 3 = 9),
      show (3 : ℝ) - 1 = 2 by norm_num, abs_of_nonneg (by norm_num : (0 : ℝ) ≤ 2)]
    norm_num
  · intro e he
    simp only [List.mem_singleton] at he
    subst he
    show ¬ rectHitProp ⟨0, 0, 3⟩ ⟨⟨5, 0, 5⟩, ⟨6, 0, 6⟩⟩
    unfold rectHitProp
    rw [sqrt_tolerance]
    norm_num [rectMinX, rectMaxX, rectMinZ, rectMaxZ, min_def, max_def, abs_lt]

/-- C2 counterexample: after extruding a selected line the entity is
marked hidden yet remains in the store with its `Selected` marker, is
still found by the hit-test at a point on the line, is selected again
by the Selector, and a second extrude command emits a solid from it
again. -/
theorem C2_hidden_still_selectable_counterexample :
    (extrude_system ⟨[⟨⟨⟨0, 0, 0⟩, ⟨1, 0, 0⟩⟩, true, false⟩], [], []⟩ 2).1.lines[0]? =
      some ⟨⟨⟨0, 0, 0⟩, ⟨1, 0, 0⟩⟩, true, true⟩
    ∧ selectionHit ⟨0.5, 0, 0⟩
        (extrude_system ⟨[⟨⟨⟨0, 0, 0⟩, ⟨1, 0, 0⟩⟩, true, false⟩], [], []⟩ 2).1 =
        some (EntityRef.line 0)
    ∧ isSelected (selection_system ⟨0.5, 0, 0⟩
        (extrude_system ⟨[⟨⟨⟨0, 0, 0⟩, ⟨1, 0, 0⟩⟩, true, false⟩], [], []⟩ 2).1)
        (EntityRef.line 0)
    ∧ (extrude_system
        (extrude_system ⟨[⟨⟨⟨0, 0, 0⟩, ⟨1, 0, 0⟩⟩, true, false⟩], [], []⟩ 2).1 2).2 ≠ [] := by
  have hs1 : (extrude_system ⟨[⟨⟨⟨0, 0, 0⟩, ⟨1, 0, 0⟩⟩, true, false⟩], [], []⟩ 2).1 =
      ⟨[⟨⟨⟨0, 0, 0⟩, ⟨1, 0, 0⟩⟩, true, true⟩], [], []⟩ := by
    simp [extrude_system, extrudeLines, extrudeCircles, extrudeRects]
  have hhit : selectionHit ⟨0.5, 0, 0⟩
      (⟨[⟨⟨⟨0, 0, 0⟩, ⟨1, 0, 0⟩⟩, true, true⟩], [], []⟩ : SketchStore) =
      some (EntityRef.line 0) := by
    norm_num [selectionHit, scanLines, scanCircles, scanRects, initScan, lineMetric,
      point_line_segment_distance_sq, Vec3.sub, Vec3.dot, Vec3.lengthSquared, Vec3.add,
      Vec3.smul, tolerance_sq, f32_MAX]
  refine ⟨?_, ?_, ?_, ?_⟩
  · rw [hs1]
    simp
  · rw [hs1]
    exact hhit
  · rw [hs1]
    exact (sel_iff _ _ _).mpr hhit
  · rw [hs1]
    simp [extrude_system, extrudeLines, extrudeCircles, extrudeRects]

/-- C2 amended: extrusion marks each selected source primitive hidden
while retaining it (and its `Selected` marker) in the store; the
hit-test ignores the hidden flag entirely, so hiding excludes nothing
from selection; and since the marker survives, a second extrude command
emits solids from the same source again. -/
theorem C2_hidden_retained_not_excluded (s : SketchStore) (d : ℝ) (p : Vec3) :
    (∀ (i : Nat) (e : StoredLine), s.lines[i]? = some e → e.sel = true →
        (extrude_system s d).1.lines[i]? = some { e with hidden := true })
    ∧ (∀ (i : Nat) (e : StoredCircle), s.circles[i]? = some e → e.sel = true →
        (extrude_system s d).1.circles[i]? = some { e with hidden := true })
    ∧ (∀ (i : Nat) (e : StoredRect), s.rects[i]? = some e → e.sel = true →
        (extrude_system s d).1.rects[i]? = some { e with hidden := true })
    ∧ selectionHit p (hideAllStore s) = selectionHit p s
    ∧ (∀ (i : Nat) (e : StoredLine), s.lines[i]? = some e → e.sel = true →
        (extrude_system (extrude_system s d).1 d).2 ≠ []) := by
  refine ⟨?_, ?_, ?_, selectionHit_hideAll p s, ?_⟩
  · intro i e hget hsel
    show (extrudeLines d s.lines).1[i]? = _
    rw [extrudeLines_getFst, hget]
    simp [hsel]
  · intro i e hget hsel
    show (extrudeCircles d s.circles).1[i]? = _
    rw [extrudeCircles_getFst, hget]
    simp [hsel]
  · intro i e hget hsel
    show (extrudeRects d s.rects).1[i]? = _
    rw [extrudeRects_getFst, hget]
    simp [hsel]
  · intro i e hget hsel
    have h1 : (extrude_system s d).1.lines[i]? = some { e with hidden := true } := by
      show (extrudeLines d s.lines).1[i]? = _
      rw [extrudeLines_getFst, hget]
      simp [hsel]
    have hm := extrudeLines_mem d (extrude_system s d).1.lines i
      { e with hidden := true } h1 hsel
    intro hnil
    have hmem : Solid.surface (extrudeLineMesh e.line d) ∈
        (extrude_system (extrude_system s d).1 d).2 := by
      show _ ∈ (extrudeLines d (extrude_system s d).1.lines).2 ++
        (extrudeCircles d (extrude_system s d).1.circles).2 ++
        (extrudeRects d (extrude_system s d).1.rects).2
      exact List.mem_append.mpr (Or.inl (List.mem_append.mpr (Or.inl hm)))
    rw [hnil] at hmem
    simp at hmem

/-- C2 witness: the amended claim applied to a concrete store with one
selected line: after extruding, the entity is hidden but retained with
its marker, and a second extrude still emits a solid. -/
theorem C2_hidden_retained_witness :
    (extrude_system ⟨[⟨⟨⟨0, 0, 0⟩, ⟨2, 0, 0⟩⟩, true, false⟩], [], []⟩ 3).1.lines[0]? =
      some ⟨⟨⟨0, 0, 0⟩, ⟨2, 0, 0⟩⟩, true, true⟩
    ∧ (extrude_system
        (extrude_system ⟨[⟨⟨⟨0, 0, 0⟩, ⟨2, 0, 0⟩⟩, true, false⟩], [], []⟩ 3).1 3).2 ≠ [] :=
  ⟨(C2_hidden_retained_not_excluded ⟨[⟨⟨⟨0, 0, 0⟩, ⟨2, 0, 0⟩⟩, true, false⟩], [], []⟩ 3
      ⟨0, 0, 0⟩).1 0 ⟨⟨⟨0, 0, 0⟩, ⟨2, 0, 0⟩⟩, true, false⟩ (by simp) rfl,
   (C2_hidden_retained_not_excluded ⟨[⟨⟨⟨0, 0, 0⟩, ⟨2, 0, 0⟩⟩, true, false⟩], [], []⟩ 3
      ⟨0, 0, 0⟩).2.2.2.2 0 ⟨⟨⟨0, 0, 0⟩, ⟨2, 0, 0⟩⟩, true, false⟩ (by simp) rfl⟩

end
